import Mathlib

set_option maxHeartbeats 1000000

namespace PubMed

/-- XML element: a tag name, optional text content (Python None modelled as
none), and a list of child elements.  This models the ElementTree values that
parse_paper_details traverses. -/
structure Element where
  tag : String
  text : Option String
  children : List Element

mutual

/-- All proper descendants of an element, in document (preorder) order.  This
is the search space of ElementTree find and findall with a .// path. -/
def descendants : Element → List Element
  | ⟨_, _, cs⟩ => descList cs

/-- Preorder listing of a forest of elements. -/
def descList : List Element → List Element
  | [] => []
  | c :: cs => c :: (descendants c ++ descList cs)

end

/-- ElementTree find with a plain child tag: first direct child with the tag. -/
def findChild (e : Element) (t : String) : Option Element :=
  e.children.find? (fun c => c.tag == t)

/-- ElementTree find with a .//tag path: first descendant with the tag, in
document order. -/
def findDesc (e : Element) (t : String) : Option Element :=
  (descendants e).find? (fun c => c.tag == t)

/-- ElementTree findall with a .//tag path: all descendants with the tag, in
document order. -/
def findallDesc (e : Element) (t : String) : List Element :=
  (descendants e).filter (fun c => c.tag == t)

/-- Prefix test on character lists. -/
def isPrefixCL : List Char → List Char → Bool
  | [], _ => true
  | _ :: _, [] => false
  | a :: as, b :: bs => a == b && isPrefixCL as bs

/-- Substring containment on character lists; models the Python expression
needle in hay on str values. -/
def containsCL : List Char → List Char → Bool
  | [], needle => needle.isEmpty
  | h :: hs, needle => isPrefixCL needle (h :: hs) || containsCL hs needle

/-- Python substring test: needle in hay, case sensitive. -/
def containsStr (hay needle : String) : Bool :=
  containsCL hay.data needle.data

/-- The whitespace characters recognised by Python str.split with no
arguments. -/
def pyIsSpace (c : Char) : Bool :=
  c == ' ' || c == '\t' || c == '\n' || c == '\r' || c == '\x0b' || c == '\x0c'

/-- Accumulator-based splitter behind pySplit. -/
def splitWSAux : List Char → List Char → List (List Char)
  | [], acc => if acc.isEmpty then [] else [acc.reverse]
  | c :: cs, acc =>
    if pyIsSpace c then
      if acc.isEmpty then splitWSAux cs [] else acc.reverse :: splitWSAux cs []
    else splitWSAux cs (c :: acc)

/-- Python str.split with no arguments: split on runs of whitespace,
discarding empty tokens. -/
def pySplit (s : String) : List String :=
  (splitWSAux s.data []).map List.asString

/-- The academic keyword list of PubMedFetcher.is_academic. -/
def academic_keywords : List String :=
  ["University", "Institute", "College", "Research", "Academy"]

/-- The company keyword list of PubMedFetcher.is_company. -/
def company_keywords : List String :=
  ["Pharma", "Biotech", "Pharmaceutical", "Biotechnology"]

/-- PubMedFetcher.is_academic: true when the affiliation contains any academic
keyword as a case-sensitive substring. -/
def is_academic (affiliation : String) : Bool :=
  academic_keywords.any (fun kw => containsStr affiliation kw)

/-- PubMedFetcher.is_company: true when the affiliation contains any company
keyword as a case-sensitive substring. -/
def is_company (affiliation : String) : Bool :=
  company_keywords.any (fun kw => containsStr affiliation kw)

/-- Python string interpolation of a str-or-None value: None renders as the
string None. -/
def pyStr : Option String → String
  | none => "None"
  | some s => s

/-- Python truthiness of a str-or-None value: None and the empty string are
falsy. -/
def optTruthy : Option String → Bool
  | none => false
  | some s => !(s == "")

/-- ElementTree element truthiness: an Element is truthy iff it has child
elements.  This is what the code's if pub_date_elem tests. -/
def elemTruthy (e : Element) : Bool :=
  !e.children.isEmpty

/-- The per-record author-loop state of parse_paper_details: the non-academic
author names in append order, the company-affiliation set (modelled as a
duplicate-free list in insertion order), and the corresponding-author email
found so far. -/
structure AuthState where
  nonAcademic : List String
  companies : List String
  email : Option String
deriving DecidableEq, Repr

/-- elem.find(tag).text if elem.find(tag) is not None else "N/A": the found
child element may itself have text None. -/
def textOrNA (p : Element) (t : String) : Option String :=
  match findChild p t with
  | some e => e.text
  | none => some "N/A"

/-- The affiliation value extracted for one author: the first Affiliation
descendant's text, or "N/A" when no Affiliation descendant exists.  The value
is none (Python None) when the element is present with no text. -/
def affOf (author : Element) : Option String :=
  match findDesc author "Affiliation" with
  | some e => e.text
  | none => some "N/A"

/-- f-string "fore last" with None rendered as None. -/
def authorName (author : Element) : String :=
  pyStr (textOrNA author "ForeName") ++ " " ++ pyStr (textOrNA author "LastName")

/-- next((word for word in affiliation.split() if "@" in word), None): the
first whitespace-separated token of the affiliation containing an @. -/
def candidateEmail (aff : String) : Option String :=
  (pySplit aff).find? (fun w => containsStr w "@")

/-- One iteration of the author loop of parse_paper_details.  Returns none
when the iteration raises (the substring test of is_academic applied to a
None affiliation). -/
def authorStep (st : AuthState) (author : Element) : Option AuthState :=
  let affiliation := affOf author
  let email := if optTruthy affiliation then candidateEmail (affiliation.getD "") else none
  let st1 :=
    if optTruthy email then
      if optTruthy st.email then st else { st with email := email }
    else st
  match affiliation with
  | none => none
  | some aff =>
    let st2 :=
      if is_academic aff then st1
      else { st1 with nonAcademic := st1.nonAcademic ++ [authorName author] }
    let st3 :=
      if is_company aff && !(st2.companies.contains aff) then
        { st2 with companies := st2.companies ++ [aff] }
      else st2
    some st3

/-- The dictionary returned by parse_paper_details.  Fields whose Python value
can be None are Option String; the rest are always strings. -/
structure ParsedRecord where
  pubmedID : Option String
  title : Option String
  publicationDate : String
  nonAcademicAuthors : String
  companyAffiliations : String
  correspondingEmail : String
deriving DecidableEq, Repr

/-- The author-loop state before the first iteration. -/
def startState : AuthState := ⟨[], [], none⟩

/-- PubMedFetcher.parse_paper_details on an already-parsed XML tree.  Returns
none when the author loop raises. -/
def parse_paper_details (root : Element) : Option ParsedRecord :=
  let pubmed_id :=
    match findDesc root "PMID" with
    | some e => e.text
    | none => some "N/A"
  let title :=
    match findDesc root "ArticleTitle" with
    | some e => e.text
    | none => some "N/A"
  let publication_date :=
    match findDesc root "DateCompleted" with
    | some d =>
      if elemTruthy d then
        pyStr (textOrNA d "Year") ++ "-" ++ pyStr (textOrNA d "Month") ++ "-" ++
          pyStr (textOrNA d "Day")
      else "N/A"
    | none => "N/A"
  match (findallDesc root "Author").foldlM authorStep startState with
  | none => none
  | some st =>
    some
      { pubmedID := pubmed_id
        title := title
        publicationDate := publication_date
        nonAcademicAuthors :=
          if st.nonAcademic.isEmpty then "None" else String.intercalate "; " st.nonAcademic
        companyAffiliations :=
          if st.companies.isEmpty then "None" else String.intercalate "; " st.companies
        correspondingEmail :=
          if optTruthy st.email then st.email.getD "" else "None" }

/-- The key/value view of the dictionary literal returned by
parse_paper_details, in the literal's key order. -/
def recordFields (r : ParsedRecord) : List (String × Option String) :=
  [("PubmedID", r.pubmedID),
   ("Title", r.title),
   ("Publication Date", some r.publicationDate),
   ("Non-academic Author(s)", some r.nonAcademicAuthors),
   ("Company Affiliation(s)", some r.companyAffiliations),
   ("Corresponding Author Email", some r.correspondingEmail)]

/-- A needle occurs as a contiguous substring of a hay string.  This is the
mathematical meaning of the Python expression needle in hay. -/
def SubstrOf (needle hay : String) : Prop :=
  ∃ p q : List Char, hay.data = p ++ needle.data ++ q

theorem isPrefixCL_iff (n l : List Char) :
    isPrefixCL n l = true ↔ ∃ q, l = n ++ q := by
  induction n generalizing l with
  | nil => simp [isPrefixCL]
  | cons a as ih =>
    cases l with
    | nil => simp [isPrefixCL]
    | cons b bs =>
      simp only [isPrefixCL, Bool.and_eq_true, beq_iff_eq, ih, List.cons_append,
        List.cons.injEq]
      constructor
      · rintro ⟨rfl, q, rfl⟩; exact ⟨q, rfl, rfl⟩
      · rintro ⟨q, rfl, rfl⟩; exact ⟨rfl, q, rfl⟩

theorem containsCL_iff (hay needle : List Char) :
    containsCL hay needle = true ↔ ∃ p q, hay = p ++ needle ++ q := by
  induction hay with
  | nil =>
    simp only [containsCL, List.isEmpty_iff]
    constructor
    · rintro rfl; exact ⟨[], [], rfl⟩
    · rintro ⟨p, q, h⟩
      rcases List.append_eq_nil.mp h.symm with ⟨h1, h2⟩
      exact (List.append_eq_nil.mp h1).2
  | cons h hs ih =>
    simp only [containsCL, Bool.or_eq_true, isPrefixCL_iff, ih]
    constructor
    · rintro (⟨q, hq⟩ | ⟨p, q, hq⟩)
      · exact ⟨[], q, by simpa using hq⟩
      · exact ⟨h :: p, q, by simp [hq]⟩
    · rintro ⟨p, q, hq⟩
      cases p with
      | nil => exact Or.inl ⟨q, by simpa using hq⟩
      | cons x xs =>
        simp only [List.cons_append, List.cons.injEq] at hq
        exact Or.inr ⟨xs, q, hq.2⟩

/-- The executable substring test agrees with the mathematical substring
relation. -/
theorem containsStr_iff (hay needle : String) :
    containsStr hay needle = true ↔ SubstrOf needle hay :=
  containsCL_iff hay.data needle.data

/-- The affiliation contains some academic keyword as a substring: the claim
reading of the is_academic test. -/
def HasAcademicKeyword (aff : String) : Prop :=
  ∃ kw ∈ academic_keywords, SubstrOf kw aff

/-- The affiliation contains some company keyword as a substring: the claim
reading of the is_company test. -/
def HasCompanyKeyword (aff : String) : Prop :=
  ∃ kw ∈ company_keywords, SubstrOf kw aff

theorem is_academic_iff (aff : String) :
    is_academic aff = true ↔ HasAcademicKeyword aff := by
  simp only [is_academic, List.any_eq_true, containsStr_iff, HasAcademicKeyword]

theorem is_company_iff (aff : String) :
    is_company aff = true ↔ HasCompanyKeyword aff := by
  simp only [is_company, List.any_eq_true, containsStr_iff, HasCompanyKeyword]

theorem candidateEmail_hasAt {aff c : String} (h : candidateEmail aff = some c) :
    containsStr c "@" = true := by
  have h' : (pySplit aff).find? (fun w => containsStr w "@") = some c := h
  simpa using List.find?_some h'

theorem optTruthy_of_hasAt {c : String} (h : containsStr c "@" = true) :
    optTruthy (some c) = true := by
  by_cases hc : c = ""
  · subst hc; exact absurd h (by decide)
  · simp [optTruthy, hc]

theorem candidateEmail_empty : candidateEmail "" = none := rfl

/-- Componentwise description of one author-loop iteration when the extracted
affiliation is a string (not Python None). -/
theorem authorStep_eq (st : AuthState) (a : Element) (aff : String)
    (haff : affOf a = some aff) :
    authorStep st a = some
      { nonAcademic :=
          if is_academic aff then st.nonAcademic
          else st.nonAcademic ++ [authorName a]
        companies :=
          if is_company aff && !(st.companies.contains aff) then st.companies ++ [aff]
          else st.companies
        email :=
          match candidateEmail aff with
          | none => st.email
          | some c => if optTruthy st.email then st.email else some c } := by
  rcases hce : candidateEmail aff with _ | c
  · cases hA : is_academic aff <;> cases hB : is_company aff <;>
      by_cases hC : aff ∈ st.companies <;>
      simp [authorStep, haff, hce, hA, hB, hC, optTruthy]
  · have h1 : optTruthy (some c) = true := optTruthy_of_hasAt (candidateEmail_hasAt hce)
    have h2 : optTruthy (some aff) = true := by
      by_cases h : aff = ""
      · subst h; rw [candidateEmail_empty] at hce; cases hce
      · simp [optTruthy, h]
    cases hse : optTruthy st.email <;> cases hA : is_academic aff <;>
      cases hB : is_company aff <;> by_cases hC : aff ∈ st.companies <;>
      simp [authorStep, haff, hce, h1, h2, hse, hA, hB, hC]

/-- One author-loop iteration raises when the extracted affiliation is Python
None. -/
theorem authorStep_none (st : AuthState) (a : Element)
    (haff : affOf a = none) :
    authorStep st a = none := by
  simp only [authorStep, haff, optTruthy, Bool.false_eq_true, if_false]

/-- parse_paper_details unfolded: the record fields are computed independently
of the author loop, whose failure aborts the whole parse. -/
theorem parse_paper_details_eq (root : Element) :
    parse_paper_details root =
      match (findallDesc root "Author").foldlM authorStep startState with
      | none => none
      | some st =>
        some
          { pubmedID :=
              match findDesc root "PMID" with
              | some e => e.text
              | none => some "N/A"
            title :=
              match findDesc root "ArticleTitle" with
              | some e => e.text
              | none => some "N/A"
            publicationDate :=
              match findDesc root "DateCompleted" with
              | some d =>
                if elemTruthy d then
                  pyStr (textOrNA d "Year") ++ "-" ++ pyStr (textOrNA d "Month") ++ "-" ++
                    pyStr (textOrNA d "Day")
                else "N/A"
              | none => "N/A"
            nonAcademicAuthors :=
              if st.nonAcademic.isEmpty then "None"
              else String.intercalate "; " st.nonAcademic
            companyAffiliations :=
              if st.companies.isEmpty then "None"
              else String.intercalate "; " st.companies
            correspondingEmail :=
              if optTruthy st.email then st.email.getD "" else "None" } := rfl

theorem find?_eq_head?_filter {α : Type} (p : α → Bool) (l : List α) :
    l.find? p = (l.filter p).head? := by
  induction l with
  | nil => rfl
  | cons a as ih =>
    cases h : p a with
    | true => rw [List.find?_cons_of_pos _ h, List.filter_cons_of_pos h, List.head?_cons]
    | false => rw [List.find?_cons_of_neg _ (by simp [h]), List.filter_cons_of_neg (by simp [h]), ih]

/-- The whitespace-separated tokens of one author's extracted affiliation that
contain an @ character, in document order. -/
def authorAtTokens (a : Element) : List String :=
  (pySplit ((affOf a).getD "")).filter (fun w => containsStr w "@")

/-- All candidate email tokens of a record, across its authors in document
order. -/
def recordAtTokens (root : Element) : List String :=
  ((findallDesc root "Author").map authorAtTokens).flatten

theorem candidateEmail_eq_head {a : Element} {aff : String} (h : affOf a = some aff) :
    candidateEmail aff = (authorAtTokens a).head? := by
  rw [authorAtTokens, h, Option.getD_some, candidateEmail, find?_eq_head?_filter]

/-- The corresponding-author email accumulated by the author loop: once the
state holds an email it never changes, and from an empty state it becomes the
first @-token across the remaining authors in document order. -/
theorem foldlM_email (authors : List Element) (st final : AuthState)
    (hOK : ∀ w, st.email = some w → containsStr w "@" = true)
    (h : authors.foldlM authorStep st = some final) :
    (final.email =
      match st.email with
      | some e => some e
      | none => ((authors.map authorAtTokens).flatten).head?) ∧
    (∀ w, final.email = some w → containsStr w "@" = true) := by
  induction authors generalizing st with
  | nil =>
    simp only [List.foldlM_nil] at h
    cases h
    refine ⟨?_, hOK⟩
    cases hfe : final.email <;> simp [hfe]
  | cons a as ih =>
    rw [List.foldlM_cons] at h
    rcases Option.bind_eq_some.mp h with ⟨st1, hstep, hrest⟩
    rcases haff : affOf a with _ | aff
    · rw [authorStep_none st a haff] at hstep; cases hstep
    · rw [authorStep_eq st a aff haff] at hstep
      injection hstep with hst1
      subst hst1
      cases hse : st.email with
      | some e =>
        have htr : optTruthy (some e) = true := optTruthy_of_hasAt (hOK e hse)
        have h1 :
            (match candidateEmail aff with
              | none => st.email
              | some c => if optTruthy st.email then st.email else some c) = some e := by
          rw [hse]
          cases candidateEmail aff <;> simp [htr]
        rw [h1] at hrest
        obtain ⟨e1, e2⟩ :=
          ih ⟨_, _, some e⟩ (by intro w hw; cases hw; exact hOK e hse) hrest
        have e1' : final.email = some e := e1.trans rfl
        refine ⟨?_, e2⟩
        simp only [hse]
        exact e1'
      | none =>
        have h1 :
            (match candidateEmail aff with
              | none => st.email
              | some c => if optTruthy st.email then st.email else some c) =
            candidateEmail aff := by
          rw [hse]
          cases candidateEmail aff <;> simp [optTruthy]
        rw [h1] at hrest
        obtain ⟨e1, e2⟩ :=
          ih ⟨_, _, candidateEmail aff⟩
            (by intro w hw; exact candidateEmail_hasAt hw) hrest
        have e1' : final.email =
            (match candidateEmail aff with
              | some c => some c
              | none => ((as.map authorAtTokens).flatten).head?) := e1.trans rfl
        refine ⟨?_, e2⟩
        simp only [hse, List.map_cons, List.flatten_cons, List.head?_append]
        rw [← candidateEmail_eq_head haff]
        rcases hca : candidateEmail aff with _ | c <;>
          simp only [hca] at e1' <;> simp [e1', Option.or]
/-- Successful parses are exactly the successful author-loop runs, and the
returned record is determined by the tree and the final loop state. -/
theorem parse_eq_some {root : Element} {r : ParsedRecord}
    (h : parse_paper_details root = some r) :
    ∃ st, (findallDesc root "Author").foldlM authorStep startState = some st ∧
      r = { pubmedID :=
              match findDesc root "PMID" with
              | some e => e.text
              | none => some "N/A"
            title :=
              match findDesc root "ArticleTitle" with
              | some e => e.text
              | none => some "N/A"
            publicationDate :=
              match findDesc root "DateCompleted" with
              | some d =>
                if elemTruthy d then
                  pyStr (textOrNA d "Year") ++ "-" ++ pyStr (textOrNA d "Month") ++ "-" ++
                    pyStr (textOrNA d "Day")
                else "N/A"
              | none => "N/A"
            nonAcademicAuthors :=
              if st.nonAcademic.isEmpty then "None"
              else String.intercalate "; " st.nonAcademic
            companyAffiliations :=
              if st.companies.isEmpty then "None"
              else String.intercalate "; " st.companies
            correspondingEmail :=
              if optTruthy st.email then st.email.getD "" else "None" } := by
  rw [parse_paper_details_eq] at h
  rcases hf : (findallDesc root "Author").foldlM authorStep startState with _ | st
  · rw [hf] at h; cases h
  · rw [hf] at h
    injection h with h
    exact ⟨st, rfl, h.symm⟩

/-- The date rule asserted by the original sentence of the spec: whenever a
DateCompleted node is present, join the Year/Month/Day child texts with
hyphens, defaulting each missing child to the string N/A. -/
def claimedDateRule (root : Element) : String :=
  match findDesc root "DateCompleted" with
  | some d =>
    pyStr (textOrNA d "Year") ++ "-" ++ pyStr (textOrNA d "Month") ++ "-" ++
      pyStr (textOrNA d "Day")
  | none => "N/A"

/-- The amended date rule: the joined form only applies when the DateCompleted
node has at least one child element; a childless DateCompleted behaves like an
absent one and yields the plain string N/A. -/
def amendedDateRule (root : Element) : String :=
  match findDesc root "DateCompleted" with
  | some d =>
    if d.children.isEmpty then "N/A"
    else
      pyStr (textOrNA d "Year") ++ "-" ++ pyStr (textOrNA d "Month") ++ "-" ++
        pyStr (textOrNA d "Day")
  | none => "N/A"

/-- A record whose DateCompleted node is present but has no child elements. -/
def exEmptyDC : Element :=
  ⟨"PubmedArticle", none, [⟨"DateCompleted", none, []⟩]⟩

/-- C1 counterexample: on a record with a present but childless DateCompleted
node the parser yields the plain date N/A, not the hyphen-joined
N/A-N/A-N/A that the claimed rule computes, because the code tests
ElementTree truthiness (child count) rather than presence. -/
theorem C1_counterexample :
    (findDesc exEmptyDC "DateCompleted").isSome = true ∧
    (parse_paper_details exEmptyDC).map ParsedRecord.publicationDate = some "N/A" ∧
    claimedDateRule exEmptyDC = "N/A-N/A-N/A" ∧
    (parse_paper_details exEmptyDC).map ParsedRecord.publicationDate ≠
      some (claimedDateRule exEmptyDC) := by
  refine ⟨rfl, rfl, rfl, ?_⟩
  decide

/-- C1 amended: every record parse_paper_details returns carries the
publication date given by the amended rule: hyphen-joined Year/Month/Day child
texts (each N/A when the child is missing) when DateCompleted is present with
at least one child element, and the plain string N/A when DateCompleted is
absent or childless. -/
theorem C1_publication_date (root : Element) (r : ParsedRecord)
    (h : parse_paper_details root = some r) :
    r.publicationDate = amendedDateRule root := by
  obtain ⟨st, hf, rfl⟩ := parse_eq_some h
  show (match findDesc root "DateCompleted" with
        | some d =>
          if elemTruthy d then
            pyStr (textOrNA d "Year") ++ "-" ++ pyStr (textOrNA d "Month") ++ "-" ++
              pyStr (textOrNA d "Day")
          else "N/A"
        | none => "N/A") = amendedDateRule root
  rw [amendedDateRule]
  rcases findDesc root "DateCompleted" with _ | d
  · rfl
  · rcases hd : d.children.isEmpty with _ | _ <;>
      simp [elemTruthy, hd]

/-- A record with DateCompleted present, Year and Month children, and no Day
child. -/
def exDCNoDay : Element :=
  ⟨"PubmedArticle", none,
    [⟨"DateCompleted", none,
      [⟨"Year", some "2024", []⟩, ⟨"Month", some "05", []⟩]⟩]⟩

/-- The record parsed from exDCNoDay. -/
def exDCNoDayRec : ParsedRecord :=
  ⟨some "N/A", some "N/A", "2024-05-N/A", "None", "None", "None"⟩

/-- C1 witness: a record with DateCompleted missing only Day parses to the
date 2024-05-N/A, as the amended rule computes. -/
theorem C1_publication_date_witness :
    parse_paper_details exDCNoDay = some exDCNoDayRec ∧
    exDCNoDayRec.publicationDate = amendedDateRule exDCNoDay ∧
    amendedDateRule exDCNoDay = "2024-05-N/A" :=
  ⟨by decide, C1_publication_date exDCNoDay exDCNoDayRec (by decide), by decide⟩

/-- The fixed output column names, in the order of the dictionary literal of
parse_paper_details and of the CSV header. -/
def csvColumns : List String :=
  ["PubmedID", "Title", "Publication Date", "Non-academic Author(s)",
   "Company Affiliation(s)", "Corresponding Author Email"]

/-- A minimal record with no PMID, no title, no authors. -/
def exBare : Element := ⟨"PubmedArticle", none, []⟩

/-- A record whose ArticleTitle element is present but has no text. -/
def exEmptyTitle : Element :=
  ⟨"PubmedArticle", none, [⟨"ArticleTitle", none, []⟩]⟩

/-- C2 counterexample: a parsed record has six fields, not five; and a record
whose ArticleTitle element is present with no text yields a None (null) title
value, so not every output field is a string. -/
theorem C2_counterexample :
    (parse_paper_details exBare).map (fun r => ((recordFields r).map Prod.fst).length) =
      some 6 ∧
    (6 : Nat) ≠ 5 ∧
    (parse_paper_details exEmptyTitle).map ParsedRecord.title = some none := by
  refine ⟨rfl, by decide, rfl⟩

/-- C2 amended: every record parse_paper_details returns has exactly the six
fields PubmedID, Title, Publication Date, Non-academic Author(s), Company
Affiliation(s), Corresponding Author Email, in that fixed order; the last four
fields are always strings, and the PubmedID and Title fields equal the found
element's text (null exactly when that element is present with no text) or the
string N/A when the element is absent. -/
theorem C2_record_fields (root : Element) (r : ParsedRecord)
    (h : parse_paper_details root = some r) :
    (recordFields r).map Prod.fst = csvColumns ∧
    r.pubmedID =
      (match findDesc root "PMID" with
       | some e => e.text
       | none => some "N/A") ∧
    r.title =
      (match findDesc root "ArticleTitle" with
       | some e => e.text
       | none => some "N/A") ∧
    ((recordFields r).drop 2).all (fun p => p.2.isSome) = true := by
  obtain ⟨st, hf, rfl⟩ := parse_eq_some h
  exact ⟨rfl, rfl, rfl, rfl⟩

/-- The record parsed from exBare. -/
def exBareRec : ParsedRecord :=
  ⟨some "N/A", some "N/A", "N/A", "None", "None", "None"⟩

/-- C2 witness: the amended field-structure statement at a concrete record. -/
theorem C2_record_fields_witness :
    parse_paper_details exBare = some exBareRec ∧
    (recordFields exBareRec).map Prod.fst = csvColumns ∧
    exBareRec.pubmedID = some "N/A" ∧
    ((recordFields exBareRec).drop 2).all (fun p => p.2.isSome) = true :=
  ⟨by decide,
   (C2_record_fields exBare exBareRec (by decide)).1,
   (C2_record_fields exBare exBareRec (by decide)).2.1,
   (C2_record_fields exBare exBareRec (by decide)).2.2.2⟩

/-- C3: in each author-loop iteration the two classifications are independent:
the author's name is appended to the non-academic list exactly when the
affiliation contains no academic keyword, and the affiliation belongs to the
company set afterwards exactly when it was already there or contains a company
keyword; no other affiliation string is added. -/
theorem C3_author_classification (st : AuthState) (a : Element) (aff : String)
    (haff : affOf a = some aff) :
    ∃ st', authorStep st a = some st' ∧
      (st'.nonAcademic = st.nonAcademic ++ [authorName a] ↔ ¬ HasAcademicKeyword aff) ∧
      (st'.nonAcademic = st.nonAcademic ↔ HasAcademicKeyword aff) ∧
      (aff ∈ st'.companies ↔ (aff ∈ st.companies ∨ HasCompanyKeyword aff)) ∧
      (∀ x, x ≠ aff → (x ∈ st'.companies ↔ x ∈ st.companies)) := by
  refine ⟨_, authorStep_eq st a aff haff, ?_, ?_, ?_, ?_⟩
  · show (if is_academic aff then st.nonAcademic
          else st.nonAcademic ++ [authorName a]) = st.nonAcademic ++ [authorName a] ↔
        ¬ HasAcademicKeyword aff
    by_cases hA : is_academic aff = true
    · rw [if_pos hA]
      refine iff_of_false ?_ (not_not_intro ((is_academic_iff aff).mp hA))
      intro hEq
      have := congrArg List.length hEq
      simp at this
    · rw [if_neg hA]
      exact iff_of_true rfl (fun hk => hA ((is_academic_iff aff).mpr hk))
  · show (if is_academic aff then st.nonAcademic
          else st.nonAcademic ++ [authorName a]) = st.nonAcademic ↔
        HasAcademicKeyword aff
    by_cases hA : is_academic aff = true
    · rw [if_pos hA]
      exact iff_of_true rfl ((is_academic_iff aff).mp hA)
    · rw [if_neg hA]
      refine iff_of_false ?_ (fun hk => hA ((is_academic_iff aff).mpr hk))
      intro hEq
      have := congrArg List.length hEq
      simp at this
  · show aff ∈ (if is_company aff && !(st.companies.contains aff) then
          st.companies ++ [aff] else st.companies) ↔
        (aff ∈ st.companies ∨ HasCompanyKeyword aff)
    cases hB : is_company aff with
    | true =>
      by_cases hC : aff ∈ st.companies
      · simp [hC]
      · simp [hC, (is_company_iff aff).mp hB]
    | false =>
      have hk : ¬ HasCompanyKeyword aff := by
        intro hk
        rw [← is_company_iff aff, hB] at hk
        cases hk
      simp [hk]
  · intro x hx
    show x ∈ (if is_company aff && !(st.companies.contains aff) then
          st.companies ++ [aff] else st.companies) ↔ x ∈ st.companies
    cases hB : is_company aff with
    | true =>
      by_cases hC : aff ∈ st.companies
      · simp [hC]
      · simp [hC, hx]
    | false => simp

/-- An author whose affiliation names both a university and a pharma company. -/
def exAuthorUP : Element :=
  ⟨"Author", none,
    [⟨"ForeName", some "Uma", []⟩, ⟨"LastName", some "Park", []⟩,
     ⟨"Affiliation", some "Contoso University Pharma Unit", []⟩]⟩

/-- C3 witness: an affiliation containing both University and Pharma leaves
the non-academic list unchanged yet lands in the company set. -/
theorem C3_author_classification_witness :
    ∃ st', authorStep startState exAuthorUP = some st' ∧
      st'.nonAcademic = [] ∧ "Contoso University Pharma Unit" ∈ st'.companies := by
  obtain ⟨st', h1, h2, h3, h4, h5⟩ :=
    C3_author_classification startState exAuthorUP "Contoso University Pharma Unit" rfl
  refine ⟨st', h1, ?_, ?_⟩
  · have hk : HasAcademicKeyword "Contoso University Pharma Unit" :=
      (is_academic_iff _).mp (by decide)
    simpa [startState] using h3.mpr hk
  · exact h4.mpr (Or.inr ((is_company_iff _).mp (by decide)))

/-- C4: the corresponding-author email of every returned record is the first
whitespace-separated token containing an @ across all authors in document
order, or the string None when no author affiliation has such a token. -/
theorem C4_corresponding_email (root : Element) (r : ParsedRecord)
    (h : parse_paper_details root = some r) :
    r.correspondingEmail =
      match (recordAtTokens root).head? with
      | some t => t
      | none => "None" := by
  obtain ⟨st, hf, rfl⟩ := parse_eq_some h
  obtain ⟨e1, e2⟩ := foldlM_email _ startState st (by intro w hw; cases hw) hf
  have e1' : st.email = (recordAtTokens root).head? := e1.trans rfl
  show (if optTruthy st.email then st.email.getD "" else "None") =
      match (recordAtTokens root).head? with
      | some t => t
      | none => "None"
  rcases hh : (recordAtTokens root).head? with _ | t
  · rw [e1', hh]
    rfl
  · rw [e1', hh]
    have := optTruthy_of_hasAt (e2 t (e1'.trans hh))
    rw [this, if_pos rfl]
    rfl

/-- A record with two authors whose affiliations both contain an email
token. -/
def exTwoEmails : Element :=
  ⟨"PubmedArticle", none,
    [⟨"PMID", some "11", []⟩,
     ⟨"ArticleTitle", some "T", []⟩,
     ⟨"AuthorList", none,
       [⟨"Author", none,
          [⟨"ForeName", some "A", []⟩, ⟨"LastName", some "One", []⟩,
           ⟨"Affiliation", some "Acme Pharma a@x.com", []⟩]⟩,
        ⟨"Author", none,
          [⟨"ForeName", some "B", []⟩, ⟨"LastName", some "Two", []⟩,
           ⟨"Affiliation", some "Beta Labs b@y.com", []⟩]⟩]⟩]⟩

/-- The record parsed from exTwoEmails. -/
def exTwoEmailsRec : ParsedRecord :=
  ⟨some "11", some "T", "N/A", "A One; B Two", "Acme Pharma a@x.com", "a@x.com"⟩

/-- C4 witness: with two authors carrying emails, the record's email is the
first one in document order, not the second. -/
theorem C4_corresponding_email_witness :
    parse_paper_details exTwoEmails = some exTwoEmailsRec ∧
    exTwoEmailsRec.correspondingEmail =
      (match (recordAtTokens exTwoEmails).head? with
       | some t => t
       | none => "None") ∧
    (recordAtTokens exTwoEmails).head? = some "a@x.com" ∧
    exTwoEmailsRec.correspondingEmail ≠ "b@y.com" :=
  ⟨by decide,
   C4_corresponding_email exTwoEmails exTwoEmailsRec (by decide),
   by decide, by decide⟩

/-- An author whose first Affiliation element is present but carries no
text. -/
def exAuthorNilAff : Element :=
  ⟨"Author", none,
    [⟨"LastName", some "Doe", []⟩, ⟨"Affiliation", none, []⟩]⟩

/-- A record containing exAuthorNilAff. -/
def exNilAff : Element :=
  ⟨"PubmedArticle", none,
    [⟨"PMID", some "7", []⟩, ⟨"AuthorList", none, [exAuthorNilAff]⟩]⟩

/-- C9: parse_paper_details is not total on well-formed trees: when an
author's first Affiliation element has no text the extracted affiliation is
Python None, the email guard skips it, and the substring test of is_academic
raises, so the whole parse fails instead of returning a record. -/
theorem C9_parse_not_total :
    affOf exAuthorNilAff = none ∧
    authorStep startState exAuthorNilAff = none ∧
    parse_paper_details exNilAff = none := by
  refine ⟨rfl, rfl, rfl⟩

/-- C10: an author node with no Affiliation descendant gets the sentinel
affiliation N/A, which contains no academic and no company keyword; the
iteration therefore appends the author to the non-academic list and leaves the
company set and the email untouched. -/
theorem C10_default_affiliation (st : AuthState) (a : Element)
    (h : findDesc a "Affiliation" = none) :
    affOf a = some "N/A" ∧
    ¬ HasAcademicKeyword "N/A" ∧
    ¬ HasCompanyKeyword "N/A" ∧
    authorStep st a =
      some { st with nonAcademic := st.nonAcademic ++ [authorName a] } := by
  have haff : affOf a = some "N/A" := by rw [affOf, h]
  refine ⟨haff, ?_, ?_, ?_⟩
  · intro hk
    have := (is_academic_iff "N/A").mpr hk
    exact absurd this (by decide)
  · intro hk
    have := (is_company_iff "N/A").mpr hk
    exact absurd this (by decide)
  · rw [authorStep_eq st a "N/A" haff]
    have h1 : is_academic "N/A" = false := by decide
    have h2 : is_company "N/A" = false := by decide
    have h3 : candidateEmail "N/A" = none := by decide
    simp [h1, h2, h3]

/-- An author with a name and no Affiliation descendant. -/
def exAuthorNoAff : Element :=
  ⟨"Author", none,
    [⟨"ForeName", some "Edgar", []⟩, ⟨"LastName", some "Poe", []⟩]⟩

/-- C10 witness: the default-affiliation behaviour at a concrete author node
and a concrete loop state. -/
theorem C10_default_affiliation_witness :
    affOf exAuthorNoAff = some "N/A" ∧
    ¬ HasAcademicKeyword "N/A" ∧
    ¬ HasCompanyKeyword "N/A" ∧
    authorStep startState exAuthorNoAff =
      some { startState with
              nonAcademic := startState.nonAcademic ++ [authorName exAuthorNoAff] } :=
  C10_default_affiliation startState exAuthorNoAff rfl

/-- A JSON value, as produced by response.json(). -/
inductive Json where
  | null
  | bool (b : Bool)
  | num (n : Int)
  | str (s : String)
  | arr (elems : List Json)
  | obj (fields : List (String × Json))

/-- Python dict .get(key, default) on a dict built from a JSON object (later
duplicate keys overwrite earlier ones, as in json.loads). -/
def pyDictGet (kvs : List (String × Json)) (k : String) (d : Json) : Json :=
  match kvs.reverse.find? (fun p => p.1 == k) with
  | some p => p.2
  | none => d

/-- The query parameters fetch_paper_ids sends to the search endpoint. -/
def search_params (search_term : String) (max_results : Nat) : List (String × String) :=
  [("db", "pubmed"), ("term", search_term), ("retmax", toString max_results),
   ("retmode", "json")]

/-- The response-processing tail of fetch_paper_ids:
data.get("esearchresult", dict()).get("idlist", list()).  The HTTP call itself
is external; none models the AttributeError raised when .get is applied to a
non-dict value. -/
def fetch_paper_ids_extract (data : Json) : Option Json :=
  match data with
  | .obj kvs =>
    match pyDictGet kvs "esearchresult" (.obj []) with
    | .obj kvs2 => some (pyDictGet kvs2 "idlist" (.arr []))
    | _ => none
  | _ => none

/-- C5: on a well-formed search response (the external service honours retmax,
so the stored identifier list has length at most the requested maximum),
fetch_paper_ids returns exactly the list stored at esearchresult/idlist, in
source order and within the requested bound, and the request carries that
bound as retmax; when the esearchresult key is absent the result is the empty
list. -/
theorem C5_fetch_paper_ids (term : String) (kvs kvs2 : List (String × Json))
    (ids : List Json) (max_results : Nat)
    (hsr : pyDictGet kvs "esearchresult" (.obj []) = .obj kvs2)
    (hid : pyDictGet kvs2 "idlist" (.arr []) = .arr ids)
    (hwf : ids.length ≤ max_results) :
    fetch_paper_ids_extract (.obj kvs) = some (.arr ids) ∧
    ids.length ≤ max_results ∧
    ("retmax", toString max_results) ∈ search_params term max_results ∧
    (∀ kvs' : List (String × Json),
      kvs'.reverse.find? (fun p => p.1 == "esearchresult") = none →
      fetch_paper_ids_extract (.obj kvs') = some (.arr [])) := by
  refine ⟨?_, hwf, by simp [search_params], ?_⟩
  · rw [fetch_paper_ids_extract, hsr]
    show some (pyDictGet kvs2 "idlist" (.arr [])) = some (.arr ids)
    rw [hid]
  · intro kvs' habs
    rw [fetch_paper_ids_extract]
    rw [show pyDictGet kvs' "esearchresult" (.obj []) = .obj [] from by
      rw [pyDictGet, habs]]
    rfl

/-- A well-formed search response holding two identifiers. -/
def exSearchIdList : List (String × Json) :=
  [("idlist", .arr [.str "101", .str "102"])]

/-- C5 witness: the extraction at a concrete response, with a concrete bound
and a concrete key-free response for the absent case. -/
theorem C5_fetch_paper_ids_witness :
    fetch_paper_ids_extract (.obj [("esearchresult", .obj exSearchIdList)]) =
      some (.arr [.str "101", .str "102"]) ∧
    ([Json.str "101", Json.str "102"].length ≤ 10) ∧
    ("retmax", toString 10) ∈ search_params "cancer" 10 ∧
    (∀ kvs' : List (String × Json),
      kvs'.reverse.find? (fun p => p.1 == "esearchresult") = none →
      fetch_paper_ids_extract (.obj kvs') = some (.arr [])) :=
  C5_fetch_paper_ids "cancer" [("esearchresult", .obj exSearchIdList)]
    exSearchIdList [.str "101", .str "102"] 10 rfl rfl (by decide)

/-- pandas to_csv rendering of one cell: a missing (None) value renders as an
empty cell, a string as itself. -/
def csvCell : Option String → String
  | none => ""
  | some s => s

/-- The CSV row written for one ParsedRecord, cells in column order. -/
def toRow (r : ParsedRecord) : List String :=
  (recordFields r).map (fun p => csvCell p.2)

/-- Modelled from the spec: pandas.DataFrame(data) is external library code;
for a list of ParsedRecords (uniform six-key dictionaries) its columns are the
six fixed keys and its rows are the records in input order. -/
structure DataFrame where
  columns : List String
  rows : List (List String)

/-- DataFrame built from a list of parsed records. -/
def dataFrameOf (data : List ParsedRecord) : DataFrame :=
  ⟨csvColumns, data.map toRow⟩

/-- Modelled from the spec: DataFrame.to_csv(filename, mode append, header
flag, no index) is external library code; it appends the header row (when the
flag is set) and then the data rows after the current file content. -/
def to_csv_append (content : Option (List (List String))) (df : DataFrame)
    (header : Bool) : List (List String) :=
  content.getD [] ++ (if header then [df.columns] else []) ++ df.rows

/-- pd.io.common.file_exists on the modelled file state. -/
def file_exists (content : Option (List (List String))) : Bool :=
  content.isSome

/-- write_csv: build the DataFrame of the records and append it to the file,
writing the header exactly when the file does not exist yet. -/
def write_csv (content : Option (List (List String))) (data : List ParsedRecord) :
    List (List String) :=
  to_csv_append content (dataFrameOf data) (!file_exists content)

/-- C6: write_csv emits the fixed header exactly on a nonexistent file and
appends one row per record in input order; two successive writes to an
initially nonexistent file leave exactly one header row followed by the rows
of both calls in call order. -/
theorem C6_write_csv (d1 d2 : List ParsedRecord) (c : List (List String)) :
    write_csv none d1 = csvColumns :: d1.map toRow ∧
    write_csv (some c) d1 = c ++ d1.map toRow ∧
    write_csv (some (write_csv none d1)) d2 =
      csvColumns :: (d1.map toRow ++ d2.map toRow) := by
  refine ⟨rfl, ?_, ?_⟩ <;>
    simp [write_csv, to_csv_append, file_exists, dataFrameOf]

/-- Outcome of one CLI run: the output-file state after the run, the lines
printed to stdout, and the process exit code. -/
structure RunOutcome where
  file : Option (List (List String))
  printed : List String
  exitCode : Nat
deriving DecidableEq, Repr

/-- cli.main modelled over the outcomes of its three pipeline stages, each of
which either raises (error with a message) or returns.  The single top-level
try/except handler prints the Error line and returns normally.  A failing
write stage carries the file state it leaves behind (whatever the writer
already flushed). -/
def mainModel
    (searchStage : Except String (List String))
    (fetchStage : List String → Except String (List ParsedRecord))
    (writeStage : Option (List (List String)) → List ParsedRecord →
      Except (String × Option (List (List String))) (List (List String)))
    (file0 : Option (List (List String))) : RunOutcome :=
  match searchStage with
  | .error e => ⟨file0, ["Error: " ++ e], 0⟩
  | .ok ids =>
    match fetchStage ids with
    | .error e => ⟨file0, ["Error: " ++ e], 0⟩
    | .ok results =>
      match writeStage file0 results with
      | .error (e, f) => ⟨f, ["Error: " ++ e], 0⟩
      | .ok f => ⟨some f, [], 0⟩

/-- C7: the entry point exits 0 in every case; an exception in any stage is
reported as a single printed Error line; and a failure in the search or fetch
stage, which runs before the writer, leaves the output file untouched. -/
theorem C7_top_level_handler
    (searchStage : Except String (List String))
    (fetchStage : List String → Except String (List ParsedRecord))
    (writeStage : Option (List (List String)) → List ParsedRecord →
      Except (String × Option (List (List String))) (List (List String)))
    (file0 : Option (List (List String))) :
    (mainModel searchStage fetchStage writeStage file0).exitCode = 0 ∧
    (∀ e, searchStage = .error e →
      mainModel searchStage fetchStage writeStage file0 =
        ⟨file0, ["Error: " ++ e], 0⟩) ∧
    (∀ ids e, searchStage = .ok ids → fetchStage ids = .error e →
      mainModel searchStage fetchStage writeStage file0 =
        ⟨file0, ["Error: " ++ e], 0⟩) ∧
    (∀ ids results e f, searchStage = .ok ids → fetchStage ids = .ok results →
      writeStage file0 results = .error (e, f) →
      mainModel searchStage fetchStage writeStage file0 =
        ⟨f, ["Error: " ++ e], 0⟩) := by
  refine ⟨?_, ?_, ?_, ?_⟩
  · rcases searchStage with e | ids
    · rfl
    · rcases hfe : fetchStage ids with e | results
      · simp [mainModel, hfe]
      · rcases hw : writeStage file0 results with ⟨e, f⟩ | f <;>
          simp [mainModel, hfe, hw]
  · rintro e rfl
    rfl
  · rintro ids e rfl hfe
    simp [mainModel, hfe]
  · rintro ids results e f rfl hfe hw
    simp [mainModel, hfe, hw]

/-- C7 witness: the handler at concrete stage outcomes: a failing fetch stage
prints the Error line, leaves the file untouched and exits 0. -/
theorem C7_top_level_handler_witness :
    (mainModel (.ok ["1"]) (fun _ => .error "boom")
        (fun c d => .ok (write_csv c d)) (some [csvColumns])).exitCode = 0 ∧
    (∀ e, (.ok ["1"] : Except String (List String)) = .error e →
      mainModel (.ok ["1"]) (fun _ => .error "boom")
          (fun c d => .ok (write_csv c d)) (some [csvColumns]) =
        ⟨some [csvColumns], ["Error: " ++ e], 0⟩) ∧
    (∀ ids e, (.ok ["1"] : Except String (List String)) = .ok ids →
      (fun _ => .error "boom" : List String → Except String (List ParsedRecord)) ids
        = .error e →
      mainModel (.ok ["1"]) (fun _ => .error "boom")
          (fun c d => .ok (write_csv c d)) (some [csvColumns]) =
        ⟨some [csvColumns], ["Error: " ++ e], 0⟩) ∧
    (∀ ids results e f, (.ok ["1"] : Except String (List String)) = .ok ids →
      (fun _ => .error "boom" : List String → Except String (List ParsedRecord)) ids
        = .ok results →
      (fun c d => .ok (write_csv c d) :
        Option (List (List String)) → List ParsedRecord →
          Except (String × Option (List (List String))) (List (List String)))
        (some [csvColumns]) results = .error (e, f) →
      mainModel (.ok ["1"]) (fun _ => .error "boom")
          (fun c d => .ok (write_csv c d)) (some [csvColumns]) =
        ⟨f, ["Error: " ++ e], 0⟩) :=
  C7_top_level_handler (.ok ["1"]) (fun _ => .error "boom")
    (fun c d => .ok (write_csv c d)) (some [csvColumns])

/-- Write the result of task i into its own slot of the pool's result store. -/
def poolWrite {β : Type} (f : String → β) (ids : List String)
    (slots : Nat → Option β) (i : Nat) : Nat → Option β :=
  fun j => if j = i then (ids[i]?).map f else slots j

/-- Run the pool of fetch_details_concurrently under an arbitrary worker
schedule: tasks execute in the order listed in sched, and task i writes only
slot i. -/
def poolRun {β : Type} (f : String → β) (ids : List String) :
    List Nat → (Nat → Option β) → (Nat → Option β)
  | [], slots => slots
  | i :: rest, slots => poolRun f ids rest (poolWrite f ids slots i)

/-- fetch_details_concurrently: pool.map applies the fetch+parse function to
every identifier; the result list is read off slot by slot in input order,
whatever order the workers executed the tasks in. -/
def fetch_details_concurrently {β : Type} (f : String → β) (ids : List String)
    (sched : List Nat) : List (Option β) :=
  (List.range ids.length).map (poolRun f ids sched (fun _ => none))

theorem poolRun_apply {β : Type} (f : String → β) (ids : List String)
    (sched : List Nat) (slots : Nat → Option β) (j : Nat) :
    poolRun f ids sched slots j =
      if j ∈ sched then (ids[j]?).map f else slots j := by
  induction sched generalizing slots with
  | nil => simp [poolRun]
  | cons i rest ih =>
    rw [poolRun, ih]
    by_cases hr : j ∈ rest
    · simp [hr]
    · by_cases hi : j = i
      · subst hi
        simp [hr, poolWrite]
      · simp [hr, hi, poolWrite]

/-- C8: under every schedule that covers all task indices, the collected
result list follows input order: entry i is the fetch+parse output for
identifier i, independent of worker scheduling. -/
theorem C8_pool_map_order {β : Type} (f : String → β) (ids : List String)
    (sched : List Nat)
    (hcover : ∀ i ∈ List.range ids.length, i ∈ sched) :
    fetch_details_concurrently f ids sched = ids.map (fun x => some (f x)) := by
  rw [fetch_details_concurrently]
  refine List.ext_getElem (by simp) ?_
  intro n h1 h2
  rw [List.getElem_map, List.getElem_range, poolRun_apply,
    if_pos (hcover n (List.mem_range.mpr (by simpa using h1)))]
  simp [List.getElem?_eq_getElem (by simpa using h1)]

/-- The stub fetch+parse function of the spec's example: identifier N yields a
record titled T concatenated with N. -/
def stubFetch (n : String) : ParsedRecord :=
  ⟨some n, some ("T" ++ n), "N/A", "None", "None", "None"⟩

/-- C8 witness: identifiers 1,2,3 under the out-of-order schedule 2,0,1 still
collect titles T1, T2, T3 in input order. -/
theorem C8_pool_map_order_witness :
    fetch_details_concurrently stubFetch ["1", "2", "3"] [2, 0, 1] =
      ["1", "2", "3"].map (fun x => some (stubFetch x)) ∧
    (fetch_details_concurrently stubFetch ["1", "2", "3"] [2, 0, 1]).map
        (fun o => o.map ParsedRecord.title) =
      [some (some "T1"), some (some "T2"), some (some "T3")] :=
  ⟨C8_pool_map_order stubFetch ["1", "2", "3"] [2, 0, 1] (by decide), by decide⟩

end PubMed
